import Mathlib

/-!
A verification development for the fitness-tracker core in
`src/python_exam.py` (class `FitnessTracker` plus its persistence helpers).

The Python program keeps an in-memory table of activity records
(date, activity_type, duration, calories_burned), persisted to a CSV file
via pandas, with two grouping aggregations and two filters.

Shallow-embedding conventions used below:
  * a record is a `ActivityRecord` with a calendar `Date` (the program only
    ever stores midnight timestamps, so the time component is dropped),
    a `String` activity type and `Int` numeric fields;
  * the CSV file is modelled at field granularity: one persisted row is a
    `List String` of the four column values (the header row and the CSV
    quoting layer are abstracted away);
  * `datetime.strptime(s, "%Y-%m-%d")` is modelled after CPython's
    `_strptime` regular expressions for `%Y`, `%m`, `%d` (exactly four year
    digits; month and day accept one or two digits, a day may also be a
    space followed by a nonzero digit) followed by the calendar-validity
    check of the `datetime` constructor;
  * `pd.to_datetime(..., errors='coerce')` and
    `pd.to_numeric(..., errors='coerce')` are modelled on the value shapes
    this program itself produces (ISO dates with an optional midnight time
    suffix; optionally signed integer literals).  The full pandas coercions
    accept more (float and scientific literals, further date formats) whose
    values an integer-fielded, midnight-dated record cannot represent;
    row-level statements about load are therefore scoped to this modelled
    field domain;
  * a data row with more fields than the four header columns makes
    `pd.read_csv` raise `ParserError`; `_load_data`'s `except Exception`
    handler then returns an empty frame, so one over-long row discards the
    whole file (the length guard in `loadData`).  A row with fewer fields
    is NaN-padded by the parser and dropped individually by `dropna`;
  * `pd.read_csv` turns a field whose text is one of the default pandas
    NA tokens into NaN; `dropna(subset=columns)` then discards the row.
    This is modelled by `isNaToken` on the `activity_type` field (for the
    coerced date and numeric fields, the NA tokens fail those parsers
    anyway, so no separate check is needed there);
  * column-wide dtype inference by `read_csv` (e.g. an all-numeric
    activity_type column being re-typed to integers) is out of scope: the
    activity_type column is modelled as carrying strings.
-/

/-! ### Characters and digits -/

/-- The decimal digit characters, as produced by Python's `str` of an
integer and by `%Y`/`%m`/`%d` formatting.  Arguments `≥ 9` all map to
the digit 9; every use site is bounded. -/
def digitChar : Nat → Char
  | 0 => '0'
  | 1 => '1'
  | 2 => '2'
  | 3 => '3'
  | 4 => '4'
  | 5 => '5'
  | 6 => '6'
  | 7 => '7'
  | 8 => '8'
  | _ => '9'

/-- Numeric value of a digit character. -/
def digitVal (c : Char) : Nat := c.toNat - 48

/-- ASCII decimal digit test (code points 48–57). -/
def isDigitChar (c : Char) : Bool := 48 ≤ c.toNat && c.toNat ≤ 57

/-- ASCII whitespace, as stripped by Python's `str.strip` (the further
Unicode whitespace code points never occur in these claims). -/
def isSpaceChar (c : Char) : Bool :=
  c.toNat == 32 || c.toNat == 9 || c.toNat == 10 || c.toNat == 13 ||
  c.toNat == 11 || c.toNat == 12

/-- ASCII lowercasing of one character, as done by Python's `str.lower`
on the ASCII range. -/
def lowerChar (c : Char) : Char :=
  if 65 ≤ c.toNat ∧ c.toNat ≤ 90 then Char.ofNat (c.toNat + 32) else c

/-- Model of Python's `str.lower` (ASCII range). -/
def lowerStr (s : String) : String := String.mk (s.toList.map lowerChar)

/-- Strip whitespace from both ends of a character list. -/
def trimChars (l : List Char) : List Char :=
  ((l.dropWhile isSpaceChar).reverse.dropWhile isSpaceChar).reverse

/-- Model of Python's `str.strip()` as used in `add_activity`
(`activity_type.strip()`). -/
def pyStrip (s : String) : String := String.mk (trimChars s.toList)

/-! ### Integer literals: Python `str`/`int` and `pd.to_numeric` -/

/-- Decimal digits of `n`, most significant first, computed with explicit
fuel so that the definition is structurally recursive (kernel-reducible).
`natDigits` below instantiates the fuel. -/
def natDigitsAux : Nat → Nat → List Char
  | 0, _ => []
  | fuel + 1, n =>
    if n < 10 then [digitChar n]
    else natDigitsAux fuel (n / 10) ++ [digitChar (n % 10)]

/-- Decimal digit characters of a natural number, as in Python's `str`. -/
def natDigits (n : Nat) : List Char := natDigitsAux (n + 1) n

/-- Characters of Python's `str` of an integer: an optional minus sign
followed by the decimal digits. -/
def intChars (n : Int) : List Char :=
  if n < 0 then '-' :: natDigits n.natAbs else natDigits n.toNat

/-- Model of Python's `str(int)`, used when `DataFrame.to_csv` serialises
the integer `duration` and `calories_burned` columns. -/
def intStr (n : Int) : String := String.mk (intChars n)

/-- Numeric value of a digit-character list, most significant first. -/
def parseNatChars (l : List Char) : Nat :=
  l.foldl (fun a c => 10 * a + digitVal c) 0

/-- Parse an optionally signed decimal integer literal after whitespace
stripping; `none` when the text is not such a literal. -/
def signedDigitsOf : List Char → Option Int
  | [] => none
  | c :: rest =>
    if c = '-' then
      if rest ≠ [] ∧ rest.all isDigitChar then some (-(parseNatChars rest : Int))
      else none
    else if c = '+' then
      if rest ≠ [] ∧ rest.all isDigitChar then some ((parseNatChars rest : Int))
      else none
    else if (c :: rest).all isDigitChar then some ((parseNatChars (c :: rest) : Int))
    else none

/-- Whitespace-stripping wrapper around `signedDigitsOf`. -/
def intOfChars (l : List Char) : Option Int := signedDigitsOf (trimChars l)

/-- Model of Python's `int(text)` as invoked by `add_activity` on the
`duration` and `calories` arguments: optionally signed decimal digits with
surrounding whitespace allowed; anything else raises `ValueError`
(modelled as `none`).  Digit-grouping underscores are out of scope. -/
def pyIntOfString (s : String) : Option Int := intOfChars s.toList

/-- Model of `pd.to_numeric(field, errors='coerce')` on one CSV field as
it occurs in `_load_data`, restricted to the integer-valued literals this
program writes; an unparseable field coerces to NaN, modelled as `none`.
(The real coercion also accepts float and scientific literals such as
30.5 or 3e1, whose values an integer field cannot carry; row-level load
statements are scoped to this modelled field domain.) -/
def pdToNumeric (s : String) : Option Int := intOfChars s.toList

/-! ### Dates -/

/-- A calendar date.  The program stores dates as midnight timestamps; the
time component is always `00:00:00` on every code path, so it is dropped
in the model. -/
structure Date where
  year : Nat
  month : Nat
  day : Nat
deriving DecidableEq

/-- Gregorian leap-year rule, as implemented by Python's `datetime`. -/
def isLeapYear (y : Nat) : Bool :=
  y % 4 == 0 && (!(y % 100 == 0) || y % 400 == 0)

/-- Number of days of a month, as enforced by the `datetime` constructor. -/
def daysInMonth (y : Nat) (m : Nat) : Nat :=
  match m with
  | 1 => 31
  | 2 => if isLeapYear y then 29 else 28
  | 3 => 31
  | 4 => 30
  | 5 => 31
  | 6 => 30
  | 7 => 31
  | 8 => 31
  | 9 => 30
  | 10 => 31
  | 11 => 30
  | 12 => 31
  | _ => 0

/-- The dates representable by Python's `datetime` (year 1–9999) with a
valid month and day. -/
def validDate (d : Date) : Prop :=
  1 ≤ d.year ∧ d.year ≤ 9999 ∧ 1 ≤ d.month ∧ d.month ≤ 12 ∧
  1 ≤ d.day ∧ d.day ≤ daysInMonth d.year d.month

instance (d : Date) : Decidable (validDate d) := by
  unfold validDate; infer_instance

/-- Chronological order on dates, mirroring `datetime` comparison (the
program only ever compares midnight timestamps). -/
def dateLeb (a b : Date) : Bool :=
  if a.year ≠ b.year then a.year < b.year
  else if a.month ≠ b.month then a.month < b.month
  else a.day ≤ b.day

/-- The ten characters of the zero-padded `YYYY-MM-DD` rendering of a
date (`%04d-%02d-%02d` for years up to 9999). -/
def dateChars (d : Date) : List Char :=
  [digitChar (d.year / 1000), digitChar (d.year / 100 % 10),
   digitChar (d.year / 10 % 10), digitChar (d.year % 10), '-',
   digitChar (d.month / 10), digitChar (d.month % 10), '-',
   digitChar (d.day / 10), digitChar (d.day % 10)]

/-- The midnight time suffix ` 00:00:00` that `str(datetime)` appends. -/
def midnightChars : List Char :=
  [' ', '0', '0', ':', '0', '0', ':', '0', '0']

/-- Model of `str(datetime(y, m, d))`, the text `to_csv` writes for the
date column: `YYYY-MM-DD 00:00:00`. -/
def dateTimeStr (d : Date) : String := String.mk (dateChars d ++ midnightChars)

/-! ### `datetime.strptime(s, "%Y-%m-%d")` -/

/-- CPython `_strptime` month token `1[0-2]|0[1-9]|[1-9]`: one digit 1–9,
or two digits with value 1–12. -/
def monthOfPart (l : List Char) : Option Nat :=
  match l with
  | [a] => if isDigitChar a ∧ 1 ≤ digitVal a then some (digitVal a) else none
  | [a, b] =>
    if isDigitChar a ∧ isDigitChar b ∧ 1 ≤ 10 * digitVal a + digitVal b ∧
        10 * digitVal a + digitVal b ≤ 12 then
      some (10 * digitVal a + digitVal b)
    else none
  | _ => none

/-- CPython `_strptime` day token `3[01]|[12]\d|0[1-9]|[1-9]| [1-9]`: one
digit 1–9, a space followed by a digit 1–9, or two digits with value
1–31. -/
def dayOfPart (l : List Char) : Option Nat :=
  match l with
  | [a] => if isDigitChar a ∧ 1 ≤ digitVal a then some (digitVal a) else none
  | [a, b] =>
    if a = ' ' then
      if isDigitChar b ∧ 1 ≤ digitVal b then some (digitVal b) else none
    else if isDigitChar a ∧ isDigitChar b ∧ 1 ≤ 10 * digitVal a + digitVal b ∧
        10 * digitVal a + digitVal b ≤ 31 then
      some (10 * digitVal a + digitVal b)
    else none
  | _ => none

/-- Value of the four `%Y` digits. -/
def yearOfDigits (y1 y2 y3 y4 : Char) : Nat :=
  1000 * digitVal y1 + 100 * digitVal y2 + 10 * digitVal y3 + digitVal y4

/-- Month and day stage of the `strptime` match: both tokens must match
their regular expressions, and the assembled date must satisfy the
`datetime` constructor (year ≥ 1, day within the month). -/
def strptimeMonthDay (y : Nat) (mp dp : List Char) : Option Date :=
  match monthOfPart mp, dayOfPart dp with
  | some m, some dy =>
    if 1 ≤ y ∧ dy ≤ daysInMonth y m then some ⟨y, m, dy⟩ else none
  | _, _ => none

/-- After the four year digits and the first dash: the month token is
everything up to the next dash, the day token is everything after it;
with no second dash the match fails. -/
def strptimeAfterYear (y : Nat) (rest : List Char) : Option Date :=
  match rest.dropWhile (fun c => c ≠ '-') with
  | s2 :: dp =>
    if s2 = '-' then strptimeMonthDay y (rest.takeWhile (fun c => c ≠ '-')) dp
    else none
  | [] => none

/-- `datetime.strptime(s, "%Y-%m-%d")` on the characters of `s`: exactly
four year digits, a dash, a month token, a dash, a day token consuming
the rest of the input, followed by the calendar-validity check of the
`datetime` constructor.  Failure of any part is the `ValueError` caught
by the callers, modelled as `none`. -/
def parseStrptimeChars (l : List Char) : Option Date :=
  match l with
  | y1 :: y2 :: y3 :: y4 :: s1 :: rest =>
    if s1 = '-' ∧ isDigitChar y1 ∧ isDigitChar y2 ∧ isDigitChar y3 ∧ isDigitChar y4 then
      strptimeAfterYear (yearOfDigits y1 y2 y3 y4) rest
    else none
  | _ => none

/-- Model of `datetime.strptime(date_str, "%Y-%m-%d")` as used by
`add_activity` and `filter_by_date`. -/
def parseStrptime (s : String) : Option Date := parseStrptimeChars s.toList

/-! ### `pd.to_datetime(field, errors='coerce')` -/

/-- `pd.to_datetime(field, errors='coerce')` on one CSV date field, on the
shapes this program writes: a zero-padded ISO date `YYYY-MM-DD`,
optionally followed by the midnight time ` 00:00:00`; an invalid or
unrecognised field coerces to NaT, modelled as `none`.  (The real
coercion also parses further formats such as slash-separated dates or
non-midnight times, which a midnight-dated record cannot represent;
row-level load statements are scoped to this modelled field domain.) -/
def pdDateChars (l : List Char) : Option Date :=
  match l with
  | y1 :: y2 :: y3 :: y4 :: s1 :: m1 :: m2 :: s2 :: d1 :: d2 :: rest =>
    if s1 = '-' ∧ s2 = '-' ∧ isDigitChar y1 ∧ isDigitChar y2 ∧ isDigitChar y3 ∧
        isDigitChar y4 ∧ isDigitChar m1 ∧ isDigitChar m2 ∧ isDigitChar d1 ∧
        isDigitChar d2 ∧ (rest = [] ∨ rest = midnightChars) then
      if 1 ≤ yearOfDigits y1 y2 y3 y4 ∧ 1 ≤ 10 * digitVal m1 + digitVal m2 ∧
          10 * digitVal m1 + digitVal m2 ≤ 12 ∧ 1 ≤ 10 * digitVal d1 + digitVal d2 ∧
          10 * digitVal d1 + digitVal d2 ≤
            daysInMonth (yearOfDigits y1 y2 y3 y4) (10 * digitVal m1 + digitVal m2) then
        some ⟨yearOfDigits y1 y2 y3 y4, 10 * digitVal m1 + digitVal m2,
          10 * digitVal d1 + digitVal d2⟩
      else none
    else none
  | _ => none

/-- Model of `pd.to_datetime(field, errors='coerce')` in `_load_data`. -/
def pdToDatetime (s : String) : Option Date := pdDateChars s.toList

/-! ### Records and persistence -/

/-- One activity record, mirroring the four columns
`['date', 'activity_type', 'duration', 'calories_burned']`. -/
structure ActivityRecord where
  date : Date
  activity_type : String
  duration : Int
  calories_burned : Int
deriving DecidableEq

/-- The default NA tokens of `pd.read_csv` (with `keep_default_na=True`):
a field consisting of one of these strings is read as NaN. -/
def naTokens : List String :=
  ["", "#N/A", "#N/A N/A", "#NA", "-1.#IND", "-1.#QNAN", "-NaN", "-nan",
   "1.#IND", "1.#QNAN", "<NA>", "N/A", "NA", "NULL", "NaN", "None",
   "n/a", "nan", "null"]

/-- Whether `read_csv` turns this field into NaN. -/
def isNaToken (s : String) : Bool := naTokens.contains s

/-- The four serialised column fields `to_csv` writes for one record:
the date as `str(datetime)`, the activity type verbatim, and the numeric
fields as integer literals. -/
def serializeRecord (r : ActivityRecord) : List String :=
  [dateTimeStr r.date, r.activity_type, intStr r.duration, intStr r.calories_burned]

/-- The data rows `_save` writes: one row of four fields per record, in
store order (`self.df.to_csv(self.csv_path, index=False)`; the header row
is abstracted away). -/
def saveRows (records : List ActivityRecord) : List (List String) :=
  records.map serializeRecord

/-- `_load_data`'s per-row outcome: `pd.read_csv` yields the fields, the
date and the two numeric columns are coerced (`errors='coerce'`), the
activity_type field is NaN when it is an NA token, and
`dropna(subset=self.columns)` discards the row as soon as any of the four
values is NaN/NaT (also when a field is missing).  `some` is the record
kept in the frame. -/
def parseRowFields (ds ts dus cas : String) : Option ActivityRecord :=
  match pdToDatetime ds, pdToNumeric dus, pdToNumeric cas with
  | some d, some du, some ca =>
    if isNaToken ts then none else some ⟨d, ts, du, ca⟩
  | _, _, _ => none

/-- Per-row outcome for a row of at most four fields: a row with fewer
fields is NaN-padded by the CSV parser, so `dropna` discards it
individually.  A row with more than four fields never reaches per-row
treatment — `read_csv` fails the whole file first (see `loadData`); on
such rows this total function also returns `none`, a value `loadData`
never consults. -/
def parseRow (fields : List String) : Option ActivityRecord :=
  match fields with
  | [ds, ts, dus, cas] => parseRowFields ds ts dus cas
  | _ => none

/-- `_load_data`: a missing file yields an empty store (non-fatally).  An
existing file whose data rows each have at most the four header fields
contributes exactly its parseable rows, in file order.  If some row has
more fields than the four header columns, `pd.read_csv` raises
`ParserError`, the `except Exception` handler prints the failure, and the
whole load degrades to the empty store. -/
def loadData (file : Option (List (List String))) : List ActivityRecord :=
  match file with
  | none => []
  | some rows =>
    if rows.any (fun r => 4 < r.length) then [] else rows.filterMap parseRow

/-- `_save` on `records` followed by `_load_data` of the written file. -/
def roundTrip (records : List ActivityRecord) : List ActivityRecord :=
  loadData (some (saveRows records))

/-- The tracker's mutable state: the in-memory frame `self.df` and the
persistent CSV file (`none` when the file does not exist). -/
structure TrackerState where
  df : List ActivityRecord
  file : Option (List (List String))
deriving DecidableEq

/-- How one call to `add_activity` ends: a record appended and saved, an
early return after the caught `ValueError` of `strptime` (`"Invalid
date."` printed), or an uncaught `ValueError` escaping from
`int(duration)` / `int(calories)` (those calls are outside the `try`). -/
inductive AddResult where
  | added
  | invalidDate
  | raisedValueError
deriving DecidableEq

/-- `add_activity(date_str, activity_type, duration, calories)`: parse the
date (caught failure returns early), build the new row with
`activity_type.strip()`, `int(duration)`, `int(calories)` (failure here
is an uncaught `ValueError` and nothing is mutated), append it with
`pd.concat`, then `_save` the full store. -/
def addActivity (st : TrackerState) (dateStr typeStr durStr calStr : String) :
    TrackerState × AddResult :=
  match parseStrptime dateStr with
  | none => (st, AddResult.invalidDate)
  | some d =>
    match pyIntOfString durStr, pyIntOfString calStr with
    | some du, some ca =>
      let df2 := st.df ++ [⟨d, pyStrip typeStr, du, ca⟩]
      ({ df := df2, file := some (saveRows df2) }, AddResult.added)
    | _, _ => (st, AddResult.raisedValueError)

/-! ### Filters -/

/-- `filter_by_date(start_date, end_date)`: both bounds go through
`strptime` (a caught failure returns an empty frame), then the boolean
mask `(df['date'] >= start) & (df['date'] <= end)` keeps the matching
records in order. -/
def filterByDate (records : List ActivityRecord) (startStr endStr : String) :
    List ActivityRecord :=
  match parseStrptime startStr, parseStrptime endStr with
  | some s, some e =>
    records.filter (fun r => dateLeb s r.date && dateLeb r.date e)
  | _, _ => []

/-- `filter_by_type(activity_type)`: the mask
`df['activity_type'].str.lower() == activity_type.lower()` — both sides
lowercased, neither side trimmed. -/
def filterByType (records : List ActivityRecord) (typeName : String) :
    List ActivityRecord :=
  records.filter (fun r => lowerStr r.activity_type == lowerStr typeName)

/-! ### Aggregations -/

/-- Insertion into a list sorted by `le`. -/
def insertLe {α : Type} (le : α → α → Bool) (a : α) : List α → List α
  | [] => [a]
  | b :: l => if le a b then a :: b :: l else b :: insertLe le a l

/-- Insertion sort by `le`; models the sorted group keys of
`DataFrame.groupby` (whose default is `sort=True`). -/
def sortLe {α : Type} (le : α → α → Bool) : List α → List α
  | [] => []
  | a :: l => insertLe le a (sortLe le l)

/-- Code-point order on strings, as Python compares `str` group keys. -/
def charsLe : List Char → List Char → Bool
  | [], _ => true
  | _ :: _, [] => false
  | a :: as, b :: bs =>
    if a.toNat < b.toNat then true
    else if b.toNat < a.toNat then false
    else charsLe as bs

/-- Boolean string order used to sort `groupby('activity_type')` keys. -/
def strLeb (s t : String) : Bool := charsLe s.toList t.toList

/-- Total duration of the records of one date
(`groupby('date')` + `('duration', 'sum')`). -/
def sumDuration (records : List ActivityRecord) (d : Date) : Int :=
  ((records.filter (fun r => r.date == d)).map ActivityRecord.duration).sum

/-- Total calories of the records of one date
(`groupby('date')` + `('calories_burned', 'sum')`). -/
def sumCalories (records : List ActivityRecord) (d : Date) : Int :=
  ((records.filter (fun r => r.date == d)).map ActivityRecord.calories_burned).sum

/-- `daily_summary()`: group by exact date equality and sum duration and
calories per group, one output row per distinct date, keys in groupby's
sorted order (the empty frame yields the empty result). -/
def dailySummary (records : List ActivityRecord) : List (Date × Int × Int) :=
  (sortLe dateLeb (records.map ActivityRecord.date).dedup).map
    (fun d => (d, sumDuration records d, sumCalories records d))

/-- Number of records of one activity type (case-sensitive key). -/
def countType (records : List ActivityRecord) (t : String) : Nat :=
  (records.filter (fun r => r.activity_type == t)).length

/-- Mean duration of one activity-type group
(`('duration', 'mean')` — exact rational arithmetic stands in for the
float mean pandas computes). -/
def avgDuration (records : List ActivityRecord) (t : String) : ℚ :=
  (((records.filter (fun r => r.activity_type == t)).map
      ActivityRecord.duration).sum : ℚ) / (countType records t : ℚ)

/-- Mean calories of one activity-type group (`('calories_burned', 'mean')`). -/
def avgCalories (records : List ActivityRecord) (t : String) : ℚ :=
  (((records.filter (fun r => r.activity_type == t)).map
      ActivityRecord.calories_burned).sum : ℚ) / (countType records t : ℚ)

/-- `activity_trends()`: group by the exact `activity_type` string
(case-sensitive key) and average duration and calories per group, one
output row per distinct type, keys in groupby's sorted order. -/
def activityTrends (records : List ActivityRecord) : List (String × ℚ × ℚ) :=
  (sortLe strLeb (records.map ActivityRecord.activity_type).dedup).map
    (fun t => (t, avgDuration records t, avgCalories records t))

/-! ### Example data from the specification -/

/-- The three records of the spec's aggregation example. -/
def exampleRecords : List ActivityRecord :=
  [⟨⟨2024, 1, 1⟩, "Run", 30, 300⟩, ⟨⟨2024, 1, 1⟩, "Swim", 20, 150⟩,
   ⟨⟨2024, 1, 2⟩, "Run", 40, 400⟩]

/-- Two records whose activity types differ only in case. -/
def caseRecords : List ActivityRecord :=
  [⟨⟨2024, 1, 1⟩, "Run", 30, 300⟩, ⟨⟨2024, 1, 1⟩, "run", 20, 200⟩]

/-- A record whose activity type is the literal text nan — a valid record
by every field constraint, but its serialised type field is a pandas NA
token. -/
def nanRecord : ActivityRecord := ⟨⟨2024, 1, 1⟩, "nan", 30, 300⟩

/-- Claim C8's own notion of a text "exactly in YYYY-MM-DD form": ten
characters, four digits, a dash, two digits, a dash, two digits, denoting
a valid calendar date.  This definition follows the spec's words, to be
compared against the parser embedded from the source. -/
def isStrictYYYYMMDD (s : String) : Bool :=
  match s.toList with
  | [y1, y2, y3, y4, s1, m1, m2, s2, d1, d2] =>
    decide (s1 = '-' ∧ s2 = '-' ∧ isDigitChar y1 ∧ isDigitChar y2 ∧ isDigitChar y3 ∧
      isDigitChar y4 ∧ isDigitChar m1 ∧ isDigitChar m2 ∧ isDigitChar d1 ∧
      isDigitChar d2 ∧
      validDate ⟨yearOfDigits y1 y2 y3 y4, 10 * digitVal m1 + digitVal m2,
        10 * digitVal d1 + digitVal d2⟩)
  | _ => false

/-! ### Basic lemmas about characters and digits -/

theorem toList_mk (l : List Char) : (String.mk l).toList = l := rfl

theorem digitVal_digitChar : ∀ k, k < 10 → digitVal (digitChar k) = k := by decide

theorem isDigitChar_digitChar : ∀ k, k < 10 → isDigitChar (digitChar k) = true := by
  decide

theorem digitChar_ne_dash : ∀ k, k < 10 → digitChar k ≠ '-' := by decide

theorem digitChar_ne_space : ∀ k, k < 10 → digitChar k ≠ ' ' := by decide

theorem isDigitChar_iff (c : Char) :
    isDigitChar c = true ↔ 48 ≤ c.toNat ∧ c.toNat ≤ 57 := by
  simp [isDigitChar]

theorem digitVal_le_nine (c : Char) (h : isDigitChar c = true) : digitVal c ≤ 9 := by
  rw [isDigitChar_iff] at h
  unfold digitVal
  omega

theorem ne_dash_of_isDigitChar (c : Char) (h : isDigitChar c = true) : c ≠ '-' := by
  intro he
  subst he
  exact absurd h (by decide)

theorem ne_plus_of_isDigitChar (c : Char) (h : isDigitChar c = true) : c ≠ '+' := by
  intro he
  subst he
  exact absurd h (by decide)

theorem isSpaceChar_of_isDigitChar (c : Char) (h : isDigitChar c = true) :
    isSpaceChar c = false := by
  rw [isDigitChar_iff] at h
  simp [isSpaceChar]
  omega

theorem dropWhile_eq_self_of_false {α : Type} (p : α → Bool) :
    ∀ l : List α, (∀ c ∈ l, p c = false) → l.dropWhile p = l := by
  intro l h
  cases l with
  | nil => rfl
  | cons a t => simp [List.dropWhile_cons, h a (by simp)]

theorem trimChars_eq_self (l : List Char) (h : ∀ c ∈ l, isSpaceChar c = false) :
    trimChars l = l := by
  unfold trimChars
  rw [dropWhile_eq_self_of_false _ l h]
  rw [dropWhile_eq_self_of_false _ l.reverse (fun c hc => h c (List.mem_reverse.mp hc))]
  exact List.reverse_reverse l

/-! ### Decimal rendering and parsing of integers -/

theorem parseNatChars_append (l : List Char) (c : Char) :
    parseNatChars (l ++ [c]) = 10 * parseNatChars l + digitVal c := by
  simp [parseNatChars, List.foldl_append]

theorem natDigitsAux_spec :
    ∀ fuel n, n < fuel →
      natDigitsAux fuel n ≠ [] ∧ (natDigitsAux fuel n).all isDigitChar = true ∧
        parseNatChars (natDigitsAux fuel n) = n := by
  intro fuel
  induction fuel with
  | zero => intro n h; omega
  | succ fuel ih =>
    intro n h
    by_cases h10 : n < 10
    · simp only [natDigitsAux, if_pos h10]
      refine ⟨by simp, by simp [isDigitChar_digitChar n h10], ?_⟩
      show parseNatChars [digitChar n] = n
      have : parseNatChars [digitChar n] = digitVal (digitChar n) := by
        simp [parseNatChars]
      rw [this, digitVal_digitChar n h10]
    · obtain ⟨h1, h2, h3⟩ := ih (n / 10) (by omega)
      simp only [natDigitsAux, if_neg h10]
      refine ⟨by simp, ?_, ?_⟩
      · rw [List.all_append, h2]
        simp [isDigitChar_digitChar (n % 10) (by omega)]
      · rw [parseNatChars_append, h3, digitVal_digitChar (n % 10) (by omega)]
        omega

theorem natDigits_ne_nil (n : Nat) : natDigits n ≠ [] :=
  (natDigitsAux_spec (n + 1) n (by omega)).1

theorem natDigits_all_digits (n : Nat) : (natDigits n).all isDigitChar = true :=
  (natDigitsAux_spec (n + 1) n (by omega)).2.1

theorem parseNatChars_natDigits (n : Nat) : parseNatChars (natDigits n) = n :=
  (natDigitsAux_spec (n + 1) n (by omega)).2.2

theorem natDigits_no_space (n : Nat) : ∀ c ∈ natDigits n, isSpaceChar c = false := by
  intro c hc
  have := natDigits_all_digits n
  rw [List.all_eq_true] at this
  exact isSpaceChar_of_isDigitChar c (this c hc)

theorem signedDigitsOf_cons (c : Char) (rest : List Char) :
    signedDigitsOf (c :: rest) =
      if c = '-' then
        if rest ≠ [] ∧ rest.all isDigitChar then some (-(parseNatChars rest : Int))
        else none
      else if c = '+' then
        if rest ≠ [] ∧ rest.all isDigitChar then some ((parseNatChars rest : Int))
        else none
      else if (c :: rest).all isDigitChar then some ((parseNatChars (c :: rest) : Int))
      else none := rfl

theorem intOfChars_intChars (n : Int) : intOfChars (intChars n) = some n := by
  unfold intChars
  by_cases hn : n < 0
  · rw [if_pos hn]
    have htrim : trimChars ('-' :: natDigits n.natAbs) = '-' :: natDigits n.natAbs := by
      refine trimChars_eq_self _ ?_
      intro c hc
      rcases List.mem_cons.mp hc with h | h
      · subst h; decide
      · exact natDigits_no_space _ c h
    unfold intOfChars
    rw [htrim, signedDigitsOf_cons]
    rw [if_pos rfl, if_pos ⟨natDigits_ne_nil _, natDigits_all_digits _⟩]
    rw [parseNatChars_natDigits]
    congr 1
    omega
  · rw [if_neg hn]
    obtain ⟨c, rest, hcons⟩ := List.exists_cons_of_ne_nil (natDigits_ne_nil n.toNat)
    have hdig : ∀ x ∈ natDigits n.toNat, isDigitChar x = true := by
      have := natDigits_all_digits n.toNat
      rwa [List.all_eq_true] at this
    have hcd : isDigitChar c = true := hdig c (by rw [hcons]; simp)
    have htrim : trimChars (natDigits n.toNat) = natDigits n.toNat :=
      trimChars_eq_self _ (fun x hx => isSpaceChar_of_isDigitChar x (hdig x hx))
    unfold intOfChars
    rw [htrim, hcons, signedDigitsOf_cons]
    rw [if_neg (ne_dash_of_isDigitChar c hcd), if_neg (ne_plus_of_isDigitChar c hcd)]
    rw [if_pos (by rw [← hcons]; exact natDigits_all_digits n.toNat)]
    rw [← hcons, parseNatChars_natDigits]
    congr 1
    omega

theorem pdToNumeric_intStr (n : Int) : pdToNumeric (intStr n) = some n := by
  unfold pdToNumeric intStr
  rw [toList_mk]
  exact intOfChars_intChars n

theorem pyIntOfString_intStr (n : Int) : pyIntOfString (intStr n) = some n := by
  unfold pyIntOfString intStr
  rw [toList_mk]
  exact intOfChars_intChars n

/-! ### Unfolding equations for the date parsers -/

theorem monthOfPart_pair (a b : Char) :
    monthOfPart [a, b] =
      if isDigitChar a ∧ isDigitChar b ∧ 1 ≤ 10 * digitVal a + digitVal b ∧
          10 * digitVal a + digitVal b ≤ 12 then
        some (10 * digitVal a + digitVal b)
      else none := rfl

theorem dayOfPart_pair (a b : Char) :
    dayOfPart [a, b] =
      if a = ' ' then
        if isDigitChar b ∧ 1 ≤ digitVal b then some (digitVal b) else none
      else if isDigitChar a ∧ isDigitChar b ∧ 1 ≤ 10 * digitVal a + digitVal b ∧
          10 * digitVal a + digitVal b ≤ 31 then
        some (10 * digitVal a + digitVal b)
      else none := rfl

theorem monthOfPart_single (a : Char) :
    monthOfPart [a] =
      if isDigitChar a ∧ 1 ≤ digitVal a then some (digitVal a) else none := rfl

theorem dayOfPart_single (a : Char) :
    dayOfPart [a] =
      if isDigitChar a ∧ 1 ≤ digitVal a then some (digitVal a) else none := rfl

theorem parseStrptimeChars_cons (y1 y2 y3 y4 s1 : Char) (rest : List Char) :
    parseStrptimeChars (y1 :: y2 :: y3 :: y4 :: s1 :: rest) =
      if s1 = '-' ∧ isDigitChar y1 ∧ isDigitChar y2 ∧ isDigitChar y3 ∧ isDigitChar y4 then
        strptimeAfterYear (yearOfDigits y1 y2 y3 y4) rest
      else none := rfl

theorem strptimeAfterYear_eq (y : Nat) (rest : List Char) (s2 : Char) (dp : List Char)
    (hdw : rest.dropWhile (fun c => c ≠ '-') = s2 :: dp) :
    strptimeAfterYear y rest =
      if s2 = '-' then strptimeMonthDay y (rest.takeWhile (fun c => c ≠ '-')) dp
      else none := by
  unfold strptimeAfterYear
  rw [hdw]

theorem strptimeAfterYear_nil (y : Nat) (rest : List Char)
    (hdw : rest.dropWhile (fun c => c ≠ '-') = []) :
    strptimeAfterYear y rest = none := by
  unfold strptimeAfterYear
  rw [hdw]

theorem strptimeMonthDay_eq (y : Nat) (mp dp : List Char) (m dy : Nat)
    (hm : monthOfPart mp = some m) (hd : dayOfPart dp = some dy) :
    strptimeMonthDay y mp dp =
      if 1 ≤ y ∧ dy ≤ daysInMonth y m then some ⟨y, m, dy⟩ else none := by
  unfold strptimeMonthDay
  rw [hm, hd]

theorem strptimeMonthDay_none_month (y : Nat) (mp dp : List Char)
    (hm : monthOfPart mp = none) : strptimeMonthDay y mp dp = none := by
  unfold strptimeMonthDay
  rw [hm]

theorem strptimeMonthDay_none_day (y : Nat) (mp dp : List Char) (m : Nat)
    (hm : monthOfPart mp = some m) (hd : dayOfPart dp = none) :
    strptimeMonthDay y mp dp = none := by
  unfold strptimeMonthDay
  rw [hm, hd]

theorem pdDateChars_cons (y1 y2 y3 y4 s1 m1 m2 s2 d1 d2 : Char) (rest : List Char) :
    pdDateChars (y1 :: y2 :: y3 :: y4 :: s1 :: m1 :: m2 :: s2 :: d1 :: d2 :: rest) =
      if s1 = '-' ∧ s2 = '-' ∧ isDigitChar y1 ∧ isDigitChar y2 ∧ isDigitChar y3 ∧
          isDigitChar y4 ∧ isDigitChar m1 ∧ isDigitChar m2 ∧ isDigitChar d1 ∧
          isDigitChar d2 ∧ (rest = [] ∨ rest = midnightChars) then
        if 1 ≤ yearOfDigits y1 y2 y3 y4 ∧ 1 ≤ 10 * digitVal m1 + digitVal m2 ∧
            10 * digitVal m1 + digitVal m2 ≤ 12 ∧ 1 ≤ 10 * digitVal d1 + digitVal d2 ∧
            10 * digitVal d1 + digitVal d2 ≤
              daysInMonth (yearOfDigits y1 y2 y3 y4) (10 * digitVal m1 + digitVal m2) then
          some ⟨yearOfDigits y1 y2 y3 y4, 10 * digitVal m1 + digitVal m2,
            10 * digitVal d1 + digitVal d2⟩
        else none
      else none := rfl

/-! ### Round trips of valid dates through the parsers -/

theorem daysInMonth_le_31 (y m : Nat) : daysInMonth y m ≤ 31 := by
  unfold daysInMonth
  split <;> first | omega | (split <;> omega)

theorem yearOfDigits_pad (y : Nat) (h : y ≤ 9999) :
    yearOfDigits (digitChar (y / 1000)) (digitChar (y / 100 % 10))
      (digitChar (y / 10 % 10)) (digitChar (y % 10)) = y := by
  unfold yearOfDigits
  rw [digitVal_digitChar (y / 1000) (by omega), digitVal_digitChar (y / 100 % 10) (by omega),
    digitVal_digitChar (y / 10 % 10) (by omega), digitVal_digitChar (y % 10) (by omega)]
  omega

theorem dateChars_cons_shape (d : Date) (tail : List Char) :
    dateChars d ++ tail =
      digitChar (d.year / 1000) :: digitChar (d.year / 100 % 10) ::
      digitChar (d.year / 10 % 10) :: digitChar (d.year % 10) :: '-' ::
      digitChar (d.month / 10) :: digitChar (d.month % 10) :: '-' ::
      digitChar (d.day / 10) :: digitChar (d.day % 10) :: tail := rfl

theorem pdDateChars_valid (d : Date) (h : validDate d) :
    pdDateChars (dateChars d ++ midnightChars) = some d := by
  obtain ⟨h1, h2, h3, h4, h5, h6⟩ := h
  have h31 := daysInMonth_le_31 d.year d.month
  rw [dateChars_cons_shape, pdDateChars_cons]
  rw [if_pos ⟨rfl, rfl, isDigitChar_digitChar _ (by omega), isDigitChar_digitChar _ (by omega),
    isDigitChar_digitChar _ (by omega), isDigitChar_digitChar _ (by omega),
    isDigitChar_digitChar _ (by omega), isDigitChar_digitChar _ (by omega),
    isDigitChar_digitChar _ (by omega), isDigitChar_digitChar _ (by omega), Or.inr rfl⟩]
  rw [yearOfDigits_pad d.year h2]
  rw [digitVal_digitChar (d.month / 10) (by omega), digitVal_digitChar (d.month % 10) (by omega),
    digitVal_digitChar (d.day / 10) (by omega), digitVal_digitChar (d.day % 10) (by omega)]
  have hm : 10 * (d.month / 10) + d.month % 10 = d.month := by omega
  have hdy : 10 * (d.day / 10) + d.day % 10 = d.day := by omega
  rw [hm, hdy]
  rw [if_pos ⟨h1, h3, h4, h5, h6⟩]

theorem pdToDatetime_dateTimeStr (d : Date) (h : validDate d) :
    pdToDatetime (dateTimeStr d) = some d := by
  unfold pdToDatetime dateTimeStr
  rw [toList_mk]
  exact pdDateChars_valid d h

/-! ### `strptime` accepts the strictly padded form of every valid date -/

theorem takeWhile_pad_tail (m1 m2 d1 d2 : Char) (h1 : m1 ≠ '-') (h2 : m2 ≠ '-') :
    ([m1, m2, '-', d1, d2].takeWhile (fun c => c ≠ '-')) = [m1, m2] := by
  simp [List.takeWhile_cons, h1, h2]

theorem dropWhile_pad_tail (m1 m2 d1 d2 : Char) (h1 : m1 ≠ '-') (h2 : m2 ≠ '-') :
    ([m1, m2, '-', d1, d2].dropWhile (fun c => c ≠ '-')) = ['-', d1, d2] := by
  simp [List.dropWhile_cons, h1, h2]

theorem monthOfPart_pad (m : Nat) (hm1 : 1 ≤ m) (hm2 : m ≤ 12) :
    monthOfPart [digitChar (m / 10), digitChar (m % 10)] = some m := by
  rw [monthOfPart_pair]
  rw [digitVal_digitChar (m / 10) (by omega), digitVal_digitChar (m % 10) (by omega)]
  rw [if_pos ⟨isDigitChar_digitChar _ (by omega), isDigitChar_digitChar _ (by omega),
    by omega, by omega⟩]
  congr 1
  omega

theorem dayOfPart_pad (dy : Nat) (hd1 : 1 ≤ dy) (hd2 : dy ≤ 31) :
    dayOfPart [digitChar (dy / 10), digitChar (dy % 10)] = some dy := by
  rw [dayOfPart_pair]
  rw [if_neg (digitChar_ne_space (dy / 10) (by omega))]
  rw [digitVal_digitChar (dy / 10) (by omega), digitVal_digitChar (dy % 10) (by omega)]
  rw [if_pos ⟨isDigitChar_digitChar _ (by omega), isDigitChar_digitChar _ (by omega),
    by omega, by omega⟩]
  congr 1
  omega

theorem parseStrptimeChars_valid (d : Date) (h : validDate d) :
    parseStrptimeChars (dateChars d) = some d := by
  obtain ⟨h1, h2, h3, h4, h5, h6⟩ := h
  have h31 := daysInMonth_le_31 d.year d.month
  have hsh : dateChars d =
      digitChar (d.year / 1000) :: digitChar (d.year / 100 % 10) ::
      digitChar (d.year / 10 % 10) :: digitChar (d.year % 10) :: '-' ::
      [digitChar (d.month / 10), digitChar (d.month % 10), '-',
        digitChar (d.day / 10), digitChar (d.day % 10)] := rfl
  rw [hsh, parseStrptimeChars_cons]
  rw [if_pos ⟨rfl, isDigitChar_digitChar _ (by omega), isDigitChar_digitChar _ (by omega),
    isDigitChar_digitChar _ (by omega), isDigitChar_digitChar _ (by omega)⟩]
  rw [strptimeAfterYear_eq _ _ '-' [digitChar (d.day / 10), digitChar (d.day % 10)]
    (dropWhile_pad_tail _ _ _ _ (digitChar_ne_dash _ (by omega))
      (digitChar_ne_dash _ (by omega)))]
  rw [if_pos rfl]
  rw [takeWhile_pad_tail _ _ _ _ (digitChar_ne_dash _ (by omega)) (digitChar_ne_dash _ (by omega))]
  rw [strptimeMonthDay_eq _ _ _ d.month d.day (monthOfPart_pad d.month h3 h4)
    (dayOfPart_pad d.day h5 (by omega))]
  rw [yearOfDigits_pad d.year h2]
  rw [if_pos ⟨h1, h6⟩]

theorem parseStrptime_padded (d : Date) (h : validDate d) :
    parseStrptime (String.mk (dateChars d)) = some d := by
  unfold parseStrptime
  rw [toList_mk]
  exact parseStrptimeChars_valid d h

/-! ### Everything `strptime` accepts is a valid date -/

theorem monthOfPart_sound (l : List Char) (m : Nat) (h : monthOfPart l = some m) :
    1 ≤ m ∧ m ≤ 12 := by
  match l with
  | [] => exact absurd h (by simp [monthOfPart])
  | [a] =>
    rw [monthOfPart_single] at h
    split_ifs at h with hc
    · obtain ⟨hd, hge⟩ := hc
      have := digitVal_le_nine a hd
      injection h with h
      omega
  | [a, b] =>
    rw [monthOfPart_pair] at h
    split_ifs at h with hc
    · obtain ⟨-, -, hge, hle⟩ := hc
      injection h with h
      omega
  | a :: b :: c :: t => exact absurd h (by simp [monthOfPart])

theorem dayOfPart_sound (l : List Char) (dy : Nat) (h : dayOfPart l = some dy) :
    1 ≤ dy := by
  match l with
  | [] => exact absurd h (by simp [dayOfPart])
  | [a] =>
    rw [dayOfPart_single] at h
    split_ifs at h with hc
    · obtain ⟨hd, hge⟩ := hc
      injection h with h
      omega
  | [a, b] =>
    rw [dayOfPart_pair] at h
    split_ifs at h with hsp hc hc
    · obtain ⟨hd, hge⟩ := hc
      injection h with h
      omega
    · obtain ⟨-, -, hge, hle⟩ := hc
      injection h with h
      omega
  | a :: b :: c :: t => exact absurd h (by simp [dayOfPart])

theorem parseStrptimeChars_sound (l : List Char) (d : Date)
    (h : parseStrptimeChars l = some d) : validDate d := by
  match l with
  | [] => exact absurd h (by simp [parseStrptimeChars])
  | [a] => exact absurd h (by simp [parseStrptimeChars])
  | [a, b] => exact absurd h (by simp [parseStrptimeChars])
  | [a, b, c] => exact absurd h (by simp [parseStrptimeChars])
  | [a, b, c, e] => exact absurd h (by simp [parseStrptimeChars])
  | y1 :: y2 :: y3 :: y4 :: s1 :: rest =>
    rw [parseStrptimeChars_cons] at h
    split_ifs at h with hc
    obtain ⟨-, hy1, hy2, hy3, hy4⟩ := hc
    have b1 := digitVal_le_nine y1 hy1
    have b2 := digitVal_le_nine y2 hy2
    have b3 := digitVal_le_nine y3 hy3
    have b4 := digitVal_le_nine y4 hy4
    rcases hdw : rest.dropWhile (fun c => c ≠ '-') with - | ⟨s2, dp⟩
    · rw [strptimeAfterYear_nil _ _ hdw] at h
      exact absurd h (by simp)
    · rw [strptimeAfterYear_eq _ _ _ _ hdw] at h
      split_ifs at h with hs2
      rcases hmp : monthOfPart (rest.takeWhile (fun c => c ≠ '-')) with - | m
      · rw [strptimeMonthDay_none_month _ _ _ hmp] at h
        exact absurd h (by simp)
      rcases hdp : dayOfPart dp with - | dy
      · rw [strptimeMonthDay_none_day _ _ _ _ hmp hdp] at h
        exact absurd h (by simp)
      rw [strptimeMonthDay_eq _ _ _ _ _ hmp hdp] at h
      split_ifs at h with hv
      obtain ⟨hvy, hvd⟩ := hv
      obtain ⟨hm1, hm2⟩ := monthOfPart_sound _ _ hmp
      have hd1 := dayOfPart_sound _ _ hdp
      injection h with h
      subst h
      unfold validDate
      unfold yearOfDigits at hvy hvd
      exact ⟨hvy,
        show 1000 * digitVal y1 + 100 * digitVal y2 + 10 * digitVal y3 + digitVal y4 ≤ 9999 by
          omega,
        hm1, hm2, hd1, hvd⟩

theorem parseStrptime_sound (s : String) (d : Date) (h : parseStrptime s = some d) :
    validDate d :=
  parseStrptimeChars_sound s.toList d h

/-! ### Rows round-trip through save and load -/

theorem parseRow_quad (ds ts dus cas : String) :
    parseRow [ds, ts, dus, cas] = parseRowFields ds ts dus cas := rfl

theorem parseRowFields_eq (ds ts dus cas : String) (d : Date) (du ca : Int)
    (h1 : pdToDatetime ds = some d) (h2 : pdToNumeric dus = some du)
    (h3 : pdToNumeric cas = some ca) :
    parseRowFields ds ts dus cas =
      if isNaToken ts then none else some ⟨d, ts, du, ca⟩ := by
  unfold parseRowFields
  rw [h1, h2, h3]

theorem parseRow_serializeRecord (r : ActivityRecord) (hd : validDate r.date)
    (hna : isNaToken r.activity_type = false) :
    parseRow (serializeRecord r) = some r := by
  obtain ⟨d, t, du, ca⟩ := r
  show parseRow [dateTimeStr d, t, intStr du, intStr ca] = some ⟨d, t, du, ca⟩
  rw [parseRow_quad,
    parseRowFields_eq _ _ _ _ d du ca (pdToDatetime_dateTimeStr d hd)
      (pdToNumeric_intStr du) (pdToNumeric_intStr ca)]
  rw [if_neg (by simp only [hna]; exact Bool.false_ne_true)]

theorem loadData_some_eq (rows : List (List String)) :
    loadData (some rows) =
      if rows.any (fun r => 4 < r.length) then [] else rows.filterMap parseRow := rfl

theorem loadData_rows (rows : List (List String))
    (h : rows.any (fun r => 4 < r.length) = false) :
    loadData (some rows) = rows.filterMap parseRow := by
  rw [loadData_some_eq, if_neg (by rw [h]; exact Bool.false_ne_true)]

theorem saveRows_not_overlong (records : List ActivityRecord) :
    (saveRows records).any (fun r => 4 < r.length) = false := by
  induction records with
  | nil => rfl
  | cons r rs ih =>
    have hsave : saveRows (r :: rs) = serializeRecord r :: saveRows rs := rfl
    rw [hsave, List.any_cons, ih]
    rfl

theorem filterMap_parseRow_saveRows (records : List ActivityRecord)
    (h : ∀ r ∈ records, validDate r.date ∧ isNaToken r.activity_type = false) :
    (saveRows records).filterMap parseRow = records := by
  induction records with
  | nil => rfl
  | cons r rs ih =>
    obtain ⟨hv, hna⟩ := h r (by simp)
    have hrest := ih (fun x hx => h x (by simp [hx]))
    have hsave : saveRows (r :: rs) = serializeRecord r :: saveRows rs := rfl
    rw [hsave, List.filterMap_cons_some (parseRow_serializeRecord r hv hna)]
    exact congrArg (r :: ·) hrest

theorem roundTrip_eq (records : List ActivityRecord)
    (h : ∀ r ∈ records, validDate r.date ∧ isNaToken r.activity_type = false) :
    roundTrip records = records := by
  unfold roundTrip
  rw [loadData_rows _ (saveRows_not_overlong records)]
  exact filterMap_parseRow_saveRows records h

theorem dateLeb_antisymm (a b : Date) :
    (dateLeb a b && dateLeb b a) = true ↔ a = b := by
  obtain ⟨ay, am, ad⟩ := a
  obtain ⟨by1, bm, bd⟩ := b
  simp only [dateLeb, Bool.and_eq_true, Date.mk.injEq]
  split_ifs <;> simp_all <;> omega

theorem insertLe_perm {α : Type} (le : α → α → Bool) (a : α) (l : List α) :
    (insertLe le a l).Perm (a :: l) := by
  induction l with
  | nil => exact List.Perm.refl _
  | cons b t ih =>
    unfold insertLe
    split_ifs
    · exact List.Perm.refl _
    · exact (ih.cons b).trans (List.Perm.swap a b t)

theorem sortLe_perm {α : Type} (le : α → α → Bool) (l : List α) :
    (sortLe le l).Perm l := by
  induction l with
  | nil => exact List.Perm.refl _
  | cons a t ih => exact (insertLe_perm le a (sortLe le t)).trans (ih.cons a)

theorem sortLe_nodup {α : Type} [DecidableEq α] (le : α → α → Bool) (l : List α) :
    (sortLe le l.dedup).Nodup :=
  ((sortLe_perm le l.dedup).nodup_iff).mpr (List.nodup_dedup l)

theorem sortLe_mem {α : Type} [DecidableEq α] (le : α → α → Bool) (l : List α) (a : α) :
    a ∈ sortLe le l.dedup ↔ a ∈ l := by
  rw [(sortLe_perm le l.dedup).mem_iff]
  exact List.mem_dedup

/-! ### Unfolding equations for the tracker operations -/

theorem addActivity_invalid (st : TrackerState) (ds ts dus cas : String)
    (h : parseStrptime ds = none) :
    addActivity st ds ts dus cas = (st, AddResult.invalidDate) := by
  unfold addActivity
  rw [h]

theorem addActivity_added (st : TrackerState) (ds ts dus cas : String) (d : Date)
    (du ca : Int) (h1 : parseStrptime ds = some d) (h2 : pyIntOfString dus = some du)
    (h3 : pyIntOfString cas = some ca) :
    addActivity st ds ts dus cas =
      ({ df := st.df ++ [⟨d, pyStrip ts, du, ca⟩],
         file := some (saveRows (st.df ++ [⟨d, pyStrip ts, du, ca⟩])) },
       AddResult.added) := by
  unfold addActivity
  rw [h1, h2, h3]

theorem addActivity_raised_dur (st : TrackerState) (ds ts dus cas : String) (d : Date)
    (h1 : parseStrptime ds = some d) (h2 : pyIntOfString dus = none) :
    addActivity st ds ts dus cas = (st, AddResult.raisedValueError) := by
  unfold addActivity
  rw [h1, h2]

theorem addActivity_raised_cal (st : TrackerState) (ds ts dus cas : String) (d : Date)
    (du : Int) (h1 : parseStrptime ds = some d) (h2 : pyIntOfString dus = some du)
    (h3 : pyIntOfString cas = none) :
    addActivity st ds ts dus cas = (st, AddResult.raisedValueError) := by
  unfold addActivity
  rw [h1, h2, h3]

theorem filterByDate_some (records : List ActivityRecord) (startStr endStr : String)
    (ds de : Date) (h1 : parseStrptime startStr = some ds)
    (h2 : parseStrptime endStr = some de) :
    filterByDate records startStr endStr =
      records.filter (fun r => dateLeb ds r.date && dateLeb r.date de) := by
  unfold filterByDate
  rw [h1, h2]

theorem filterByDate_fail (records : List ActivityRecord) (startStr endStr : String)
    (h : parseStrptime startStr = none ∨ parseStrptime endStr = none) :
    filterByDate records startStr endStr = [] := by
  unfold filterByDate
  rcases h with h | h
  · rw [h]
  · rcases hs : parseStrptime startStr with - | s <;> rw [h]

/-! ### Claim theorems -/

/-- C1 (counterexample): the round-trip claim fails as stated.  The record
`nanRecord` satisfies every field constraint the claim lists (valid date,
non-empty trimmed activity type, positive duration, non-negative
calories), yet persisting `[nanRecord]` and loading it back yields the
empty sequence — `read_csv` reads the serialised type field `nan` as NaN
and `dropna` discards the row — so the result is not multiset-equal to
the persisted sequence. -/
theorem c1_roundtrip_counterexample :
    validDate nanRecord.date ∧ pyStrip nanRecord.activity_type ≠ ("") ∧
    (0 : Int) < nanRecord.duration ∧ (0 : Int) ≤ nanRecord.calories_burned ∧
    roundTrip [nanRecord] = [] ∧ ¬ (roundTrip [nanRecord]).Perm [nanRecord] := by
  decide

/-- C1 (amended): persisting then loading restores the record sequence
exactly (hence as a multiset), provided every record has a valid date, a
non-empty trimmed activity type, duration > 0, calories ≥ 0, and — the
amendment the counterexample forces — an activity type that is not one of
the pandas default NA tokens. -/
theorem c1_roundtrip (records : List ActivityRecord)
    (h : ∀ r ∈ records, validDate r.date ∧ pyStrip r.activity_type ≠ ("") ∧
      0 < r.duration ∧ 0 ≤ r.calories_burned ∧ isNaToken r.activity_type = false) :
    roundTrip records = records ∧ (roundTrip records).Perm records := by
  have he : roundTrip records = records :=
    roundTrip_eq records (fun r hr => ⟨(h r hr).1, (h r hr).2.2.2.2⟩)
  exact ⟨he, by rw [he]⟩

/-- C1 (witness): the amended round trip at a concrete one-record store. -/
theorem c1_roundtrip_witness :
    roundTrip [⟨⟨2024, 1, 1⟩, "Run", 30, 300⟩] = [⟨⟨2024, 1, 1⟩, "Run", 30, 300⟩] ∧
    (roundTrip [⟨⟨2024, 1, 1⟩, "Run", 30, 300⟩]).Perm
      [⟨⟨2024, 1, 1⟩, "Run", 30, 300⟩] :=
  c1_roundtrip [⟨⟨2024, 1, 1⟩, "Run", 30, 300⟩] (by decide)

/-- C4 (counterexample): the claim predicts that a record whose trimmed
activity type equals the query case-insensitively is returned; the record
typed with surrounding spaces satisfies that (its trimmed, lowercased
type equals the lowercased query), yet `filter_by_type` — which lowercases
but never trims — returns the empty sequence. -/
theorem c4_filter_counterexample :
    lowerStr (pyStrip (" Run ")) = lowerStr ("run") ∧
    filterByType [⟨⟨2024, 1, 1⟩, " Run ", 30, 300⟩] ("run") = [] := by
  decide

/-- C4 (amended): `filter_by_type` returns exactly the records whose
activity type as stored (lowercased, but not trimmed) equals the
lowercased query, as a subsequence of the input in original order; in
particular the query run matches a record typed Run. -/
theorem c4_filter_by_type (records : List ActivityRecord) (typeName : String) :
    filterByType records typeName =
      records.filter (fun r => lowerStr r.activity_type == lowerStr typeName) ∧
    (filterByType records typeName).Sublist records ∧
    (∀ r, r ∈ filterByType records typeName ↔
      r ∈ records ∧ lowerStr r.activity_type = lowerStr typeName) ∧
    filterByType [⟨⟨2024, 1, 1⟩, "Run", 30, 300⟩] ("run") =
      [⟨⟨2024, 1, 1⟩, "Run", 30, 300⟩] := by
  refine ⟨rfl, List.filter_sublist records, ?_, by decide⟩
  intro r
  unfold filterByType
  rw [List.mem_filter]
  simp [beq_iff_eq]

/-- C7: on valid input (a parseable date, a non-empty trimmed type, and
numeric duration and calories), `add_activity` appends exactly one record
at the end of the store — the new record's fields equal the inputs with
the activity type stripped — the length grows by exactly 1, the previous
records are unchanged in value and order, and the full new store is
persisted to the file. -/
theorem c7_add_activity (st : TrackerState) (dateStr typeStr durStr calStr : String)
    (d : Date) (du ca : Int)
    (h1 : parseStrptime dateStr = some d) (h2 : pyStrip typeStr ≠ (""))
    (h3 : pyIntOfString durStr = some du) (h4 : pyIntOfString calStr = some ca) :
    addActivity st dateStr typeStr durStr calStr =
      ({ df := st.df ++ [⟨d, pyStrip typeStr, du, ca⟩],
         file := some (saveRows (st.df ++ [⟨d, pyStrip typeStr, du, ca⟩])) },
       AddResult.added) ∧
    (addActivity st dateStr typeStr durStr calStr).1.df.length = st.df.length + 1 ∧
    (addActivity st dateStr typeStr durStr calStr).1.df.take st.df.length = st.df := by
  have he := addActivity_added st dateStr typeStr durStr calStr d du ca h1 h3 h4
  refine ⟨he, ?_, ?_⟩
  · rw [he]
    simp
  · rw [he]
    exact List.take_left st.df _

/-- C7 (witness): adding one concrete activity to a concrete store. -/
theorem c7_add_activity_witness :
    addActivity ⟨[nanRecord], some (saveRows [nanRecord])⟩ ("2024-01-01") ("  Run ")
        ("30") ("300") =
      ({ df := [nanRecord] ++ [⟨⟨2024, 1, 1⟩, "Run", 30, 300⟩],
         file := some (saveRows ([nanRecord] ++ [⟨⟨2024, 1, 1⟩, "Run", 30, 300⟩])) },
       AddResult.added) ∧
    (addActivity ⟨[nanRecord], some (saveRows [nanRecord])⟩ ("2024-01-01") ("  Run ")
        ("30") ("300")).1.df.length = ([nanRecord] : List ActivityRecord).length + 1 ∧
    (addActivity ⟨[nanRecord], some (saveRows [nanRecord])⟩ ("2024-01-01") ("  Run ")
        ("30") ("300")).1.df.take ([nanRecord] : List ActivityRecord).length =
      [nanRecord] :=
  c7_add_activity ⟨[nanRecord], some (saveRows [nanRecord])⟩ ("2024-01-01") ("  Run ")
    ("30") ("300") ⟨2024, 1, 1⟩ 30 300 (by decide) (by decide) (by decide) (by decide)

/-- C10: calling `add_activity` with a date string that `strptime`
rejects returns after the caught `ValueError`: the in-memory store and
the persistent file are both left unchanged, and nothing is written. -/
theorem c10_add_invalid_date (st : TrackerState) (dateStr typeStr durStr calStr : String)
    (h : parseStrptime dateStr = none) :
    addActivity st dateStr typeStr durStr calStr = (st, AddResult.invalidDate) ∧
    (addActivity st dateStr typeStr durStr calStr).1.df = st.df ∧
    (addActivity st dateStr typeStr durStr calStr).1.file = st.file := by
  have he := addActivity_invalid st dateStr typeStr durStr calStr h
  exact ⟨he, by rw [he], by rw [he]⟩

/-- C10 (witness): an invalid month leaves a concrete store untouched. -/
theorem c10_add_invalid_date_witness :
    addActivity ⟨[nanRecord], none⟩ ("2024-13-01") ("Run") ("30") ("300") =
      (⟨[nanRecord], none⟩, AddResult.invalidDate) ∧
    (addActivity ⟨[nanRecord], none⟩ ("2024-13-01") ("Run") ("30") ("300")).1.df =
      [nanRecord] ∧
    (addActivity ⟨[nanRecord], none⟩ ("2024-13-01") ("Run") ("30") ("300")).1.file =
      none :=
  c10_add_invalid_date ⟨[nanRecord], none⟩ ("2024-13-01") ("Run") ("30") ("300")
    (by decide)

/-- C2: `daily_summary` groups by exact date equality: each distinct date
of the input appears exactly once in the output, paired with the sum of
the durations and the sum of the calories of the records carrying that
date; the empty input yields the empty output; and on the spec's example
records it yields 2024-01-01 with totals (50, 450) and 2024-01-02 with
totals (40, 400). -/
theorem c2_daily_summary (records : List ActivityRecord) :
    dailySummary [] = [] ∧
    ((dailySummary records).map Prod.fst).Nodup ∧
    (∀ d, d ∈ (dailySummary records).map Prod.fst ↔
      d ∈ records.map ActivityRecord.date) ∧
    (∀ d td tc, (d, td, tc) ∈ dailySummary records →
      td = sumDuration records d ∧ tc = sumCalories records d) ∧
    dailySummary exampleRecords =
      [(⟨2024, 1, 1⟩, 50, 450), (⟨2024, 1, 2⟩, 40, 400)] := by
  have hkeys : (dailySummary records).map Prod.fst =
      sortLe dateLeb (records.map ActivityRecord.date).dedup := by
    unfold dailySummary
    rw [List.map_map]
    exact List.map_id _
  refine ⟨rfl, ?_, ?_, ?_, by decide⟩
  · rw [hkeys]
    exact sortLe_nodup dateLeb _
  · intro d
    rw [hkeys, sortLe_mem]
  · intro d td tc hmem
    unfold dailySummary at hmem
    rw [List.mem_map] at hmem
    obtain ⟨k, hk, he⟩ := hmem
    rw [Prod.mk.injEq, Prod.mk.injEq] at he
    obtain ⟨h1, h2, h3⟩ := he
    subst h1
    exact ⟨h2.symm, h3.symm⟩

/-- C2 (witness): the entry for 2024-01-01 in the example summary indeed
carries the sums of that date's records. -/
theorem c2_daily_summary_witness :
    (50 : Int) = sumDuration exampleRecords ⟨2024, 1, 1⟩ ∧
    (450 : Int) = sumCalories exampleRecords ⟨2024, 1, 1⟩ :=
  (c2_daily_summary exampleRecords).2.2.2.1 ⟨2024, 1, 1⟩ 50 450 (by decide)

/-- C5: `filter_by_date` keeps exactly the records between the parsed
bounds inclusively, in order; with equal bounds it returns exactly the
records carrying that date; and an unparseable bound yields the empty
result instead of an error. -/
theorem c5_filter_by_date (records : List ActivityRecord) (startStr endStr : String)
    (ds de : Date) :
    (parseStrptime startStr = some ds → parseStrptime endStr = some de →
      filterByDate records startStr endStr =
        records.filter (fun r => dateLeb ds r.date && dateLeb r.date de) ∧
      ∀ r, r ∈ filterByDate records startStr endStr ↔
        r ∈ records ∧ dateLeb ds r.date = true ∧ dateLeb r.date de = true) ∧
    (parseStrptime startStr = some ds → parseStrptime endStr = some ds →
      ∀ r, r ∈ filterByDate records startStr endStr ↔ r ∈ records ∧ r.date = ds) ∧
    (parseStrptime startStr = none ∨ parseStrptime endStr = none →
      filterByDate records startStr endStr = []) := by
  refine ⟨?_, ?_, filterByDate_fail records startStr endStr⟩
  · intro h1 h2
    have he := filterByDate_some records startStr endStr ds de h1 h2
    refine ⟨he, ?_⟩
    intro r
    rw [he, List.mem_filter]
    exact and_congr Iff.rfl (iff_of_eq (Bool.and_eq_true _ _))
  · intro h1 h2
    intro r
    rw [filterByDate_some records startStr endStr ds ds h1 h2, List.mem_filter]
    constructor
    · rintro ⟨hm, hb⟩
      exact ⟨hm, ((dateLeb_antisymm ds r.date).mp hb).symm⟩
    · rintro ⟨hm, hd⟩
      exact ⟨hm, (dateLeb_antisymm ds r.date).mpr hd.symm⟩

/-- C5 (witness): with both bounds 2024-01-01 on the example records, a
record is kept exactly when it is dated 2024-01-01. -/
theorem c5_filter_by_date_witness :
    (⟨⟨2024, 1, 1⟩, "Run", 30, 300⟩ : ActivityRecord) ∈
        filterByDate exampleRecords ("2024-01-01") ("2024-01-01") ↔
      (⟨⟨2024, 1, 1⟩, "Run", 30, 300⟩ : ActivityRecord) ∈ exampleRecords ∧
        (⟨⟨2024, 1, 1⟩, "Run", 30, 300⟩ : ActivityRecord).date = ⟨2024, 1, 1⟩ :=
  (c5_filter_by_date exampleRecords ("2024-01-01") ("2024-01-01") ⟨2024, 1, 1⟩
    ⟨2024, 1, 1⟩).2.1 (by decide) (by decide) _

theorem avgDuration_eval (records : List ActivityRecord) (t : String) (s : Int) (n : Nat)
    (hs : ((records.filter (fun r => r.activity_type == t)).map
      ActivityRecord.duration).sum = s)
    (hn : countType records t = n) :
    avgDuration records t = (s : ℚ) / (n : ℚ) := by
  unfold avgDuration
  rw [hs, hn]

theorem avgCalories_eval (records : List ActivityRecord) (t : String) (s : Int) (n : Nat)
    (hs : ((records.filter (fun r => r.activity_type == t)).map
      ActivityRecord.calories_burned).sum = s)
    (hn : countType records t = n) :
    avgCalories records t = (s : ℚ) / (n : ℚ) := by
  unfold avgCalories
  rw [hs, hn]

/-- C3: `activity_trends` groups by the exact activity-type string as a
case-sensitive key: each distinct type of the input appears exactly once
in the output, paired with the arithmetic means of duration and calories
over that group; the empty input yields the empty output; records typed
Run and run fall into two distinct groups; and on the spec's example
records Run averages (35, 350) and Swim averages (20, 150). -/
theorem c3_activity_trends (records : List ActivityRecord) :
    activityTrends [] = [] ∧
    ((activityTrends records).map Prod.fst).Nodup ∧
    (∀ t, t ∈ (activityTrends records).map Prod.fst ↔
      t ∈ records.map ActivityRecord.activity_type) ∧
    (∀ t ad ac, (t, ad, ac) ∈ activityTrends records →
      ad = avgDuration records t ∧ ac = avgCalories records t) ∧
    activityTrends caseRecords = [(("Run"), 30, 300), (("run"), 20, 200)] ∧
    activityTrends exampleRecords = [(("Run"), 35, 350), (("Swim"), 20, 150)] := by
  have hkeys : (activityTrends records).map Prod.fst =
      sortLe strLeb (records.map ActivityRecord.activity_type).dedup := by
    unfold activityTrends
    rw [List.map_map]
    exact List.map_id _
  have ec1 : avgDuration caseRecords ("Run") = 30 := by
    rw [avgDuration_eval caseRecords ("Run") 30 1 (by decide) (by decide)]
    norm_num
  have ec2 : avgCalories caseRecords ("Run") = 300 := by
    rw [avgCalories_eval caseRecords ("Run") 300 1 (by decide) (by decide)]
    norm_num
  have ec3 : avgDuration caseRecords ("run") = 20 := by
    rw [avgDuration_eval caseRecords ("run") 20 1 (by decide) (by decide)]
    norm_num
  have ec4 : avgCalories caseRecords ("run") = 200 := by
    rw [avgCalories_eval caseRecords ("run") 200 1 (by decide) (by decide)]
    norm_num
  have ee1 : avgDuration exampleRecords ("Run") = 35 := by
    rw [avgDuration_eval exampleRecords ("Run") 70 2 (by decide) (by decide)]
    norm_num
  have ee2 : avgCalories exampleRecords ("Run") = 350 := by
    rw [avgCalories_eval exampleRecords ("Run") 700 2 (by decide) (by decide)]
    norm_num
  have ee3 : avgDuration exampleRecords ("Swim") = 20 := by
    rw [avgDuration_eval exampleRecords ("Swim") 20 1 (by decide) (by decide)]
    norm_num
  have ee4 : avgCalories exampleRecords ("Swim") = 150 := by
    rw [avgCalories_eval exampleRecords ("Swim") 150 1 (by decide) (by decide)]
    norm_num
  refine ⟨rfl, ?_, ?_, ?_, ?_, ?_⟩
  · rw [hkeys]
    exact sortLe_nodup strLeb _
  · intro t
    rw [hkeys, sortLe_mem]
  · intro t ad ac hmem
    unfold activityTrends at hmem
    rw [List.mem_map] at hmem
    obtain ⟨k, hk, he⟩ := hmem
    rw [Prod.mk.injEq, Prod.mk.injEq] at he
    obtain ⟨h1, h2, h3⟩ := he
    subst h1
    exact ⟨h2.symm, h3.symm⟩
  · have hk : sortLe strLeb ((caseRecords.map ActivityRecord.activity_type).dedup) =
        [("Run"), ("run")] := by decide
    unfold activityTrends
    rw [hk, List.map_cons, List.map_cons, List.map_nil, ec1, ec2, ec3, ec4]
  · have hk : sortLe strLeb ((exampleRecords.map ActivityRecord.activity_type).dedup) =
        [("Run"), ("Swim")] := by decide
    unfold activityTrends
    rw [hk, List.map_cons, List.map_cons, List.map_nil, ee1, ee2, ee3, ee4]

/-- C3 (witness): the Run entry of the example trends carries that
group's arithmetic means. -/
theorem c3_activity_trends_witness :
    (35 : ℚ) = avgDuration exampleRecords ("Run") ∧
    (350 : ℚ) = avgCalories exampleRecords ("Run") :=
  (c3_activity_trends exampleRecords).2.2.2.1 ("Run") 35 350
    (by rw [(c3_activity_trends exampleRecords).2.2.2.2.2]; exact List.mem_cons_self _ _)

/-- C8 (counterexample): the strict-parse claim fails as stated.  The
text 2024-1-1 deviates from the zero-padded YYYY-MM-DD form, yet
`strptime` with format `%Y-%m-%d` accepts it (CPython's `%m`/`%d` also
match single digits), parsing it to 2024-01-01. -/
theorem c8_counterexample :
    (parseStrptime ("2024-1-1")).isSome = true ∧
    isStrictYYYYMMDD ("2024-1-1") = false ∧
    parseStrptime ("2024-1-1") = some ⟨2024, 1, 1⟩ := by
  decide

/-- C8 (amended): date parsing accepts exactly the valid `datetime`
dates (everything accepted is a valid calendar date with a four-digit
year, and every valid date's zero-padded YYYY-MM-DD rendering is
accepted), but zero-padding of month and day is optional — 2024-1-1 also
parses — and 2024-13-01 fails. -/
theorem c8_parse_date (s : String) (d : Date) :
    (parseStrptime s = some d → validDate d) ∧
    (validDate d → parseStrptime (String.mk (dateChars d)) = some d) ∧
    parseStrptime ("2024-13-01") = none ∧
    parseStrptime ("2024-1-1") = some ⟨2024, 1, 1⟩ :=
  ⟨parseStrptime_sound s d, parseStrptime_padded d, by decide, by decide⟩

/-- C8 (witness): both directions at the concrete leap date 2024-02-29. -/
theorem c8_parse_date_witness :
    validDate ⟨2024, 2, 29⟩ ∧
    parseStrptime (String.mk (dateChars ⟨2024, 2, 29⟩)) = some ⟨2024, 2, 29⟩ ∧
    validDate ⟨2023, 12, 31⟩ :=
  ⟨by decide,
   (c8_parse_date (String.mk (dateChars ⟨2024, 2, 29⟩)) ⟨2024, 2, 29⟩).2.1 (by decide),
   (c8_parse_date ("2023-12-31") ⟨2023, 12, 31⟩).1 (by decide)⟩

/-- C9 (counterexample): the no-unhandled-error claim fails as stated.
Passing the non-numeric duration text thirty to `add_activity` with a
valid date reaches `int(duration)`, which raises a `ValueError` outside
the `try` block — an uncaught exception, not an empty result with a
diagnostic. -/
theorem c9_counterexample :
    addActivity ⟨[], none⟩ ("2024-01-01") ("Run") ("thirty") ("300") =
      (⟨[], none⟩, AddResult.raisedValueError) := by
  decide

/-- C9 (amended): load, the filters and the date validation of add are
non-fatal — a missing file loads as the empty store, unparseable filter
bounds yield the empty result, an invalid date makes add return early —
and even the uncaught path mutates nothing; but `add_activity` raises an
uncaught `ValueError` exactly when the date parses and the duration or
calories text is not numeric. -/
theorem c9_error_containment (st : TrackerState) (ds ts dus cas : String)
    (records : List ActivityRecord) (s e : String) :
    ((addActivity st ds ts dus cas).2 = AddResult.raisedValueError ↔
      (∃ d, parseStrptime ds = some d) ∧
        (pyIntOfString dus = none ∨ pyIntOfString cas = none)) ∧
    ((addActivity st ds ts dus cas).2 = AddResult.invalidDate ↔
      parseStrptime ds = none) ∧
    ((addActivity st ds ts dus cas).2 = AddResult.raisedValueError →
      (addActivity st ds ts dus cas).1 = st) ∧
    loadData none = [] ∧
    (parseStrptime s = none ∨ parseStrptime e = none →
      filterByDate records s e = []) := by
  rcases h1 : parseStrptime ds with - | d
  · rw [addActivity_invalid st ds ts dus cas h1]
    refine ⟨?_, ⟨fun _ => rfl, fun _ => rfl⟩, ?_, rfl, filterByDate_fail records s e⟩
    · constructor
      · intro hco
        exact AddResult.noConfusion hco
      · rintro ⟨⟨d, hd⟩, -⟩
        exact Option.noConfusion hd
    · intro hco
      exact AddResult.noConfusion hco
  · rcases h2 : pyIntOfString dus with - | du
    · rw [addActivity_raised_dur st ds ts dus cas d h1 h2]
      exact ⟨⟨fun _ => ⟨⟨d, rfl⟩, Or.inl rfl⟩, fun _ => rfl⟩,
        ⟨fun hco => AddResult.noConfusion hco, fun hd => Option.noConfusion hd⟩,
        fun _ => rfl, rfl, filterByDate_fail records s e⟩
    · rcases h3 : pyIntOfString cas with - | ca
      · rw [addActivity_raised_cal st ds ts dus cas d du h1 h2 h3]
        exact ⟨⟨fun _ => ⟨⟨d, rfl⟩, Or.inr rfl⟩, fun _ => rfl⟩,
          ⟨fun hco => AddResult.noConfusion hco, fun hd => Option.noConfusion hd⟩,
          fun _ => rfl, rfl, filterByDate_fail records s e⟩
      · rw [addActivity_added st ds ts dus cas d du ca h1 h2 h3]
        refine ⟨?_, ?_, ?_, rfl, filterByDate_fail records s e⟩
        · constructor
          · intro hco
            exact AddResult.noConfusion hco
          · rintro ⟨-, hor⟩
            rcases hor with hx | hx <;> exact Option.noConfusion hx
        · exact ⟨fun hco => AddResult.noConfusion hco, fun hd => Option.noConfusion hd⟩
        · intro hco
          exact AddResult.noConfusion hco

/-- C9 (witness): unparseable filter bounds yield the empty result. -/
theorem c9_error_containment_witness :
    filterByDate [] ("not-a-date") ("2024-01-01") = [] :=
  (c9_error_containment ⟨[], none⟩ ("") ("") ("") ("") [] ("not-a-date")
    ("2024-01-01")).2.2.2.2 (Or.inl (by decide))
